import Mathlib

/-!
# Verification of the Calour discrete-FDR (dsfdr) core

The repository's statistical core is the dsfdr module: a permutation-based
multiple-hypothesis-testing engine.  The module's observable behaviour is
specified in the repository's spec (sections 4.1-4.4, 6-8) and pinned by the
test suite in calour/tests/test_dsfdr.py.  The source of the module itself is
not in the tree, so every definition below is modelled from the spec, with the
test suite's concrete expected values used to fix the choices the spec leaves
open (group order, tie handling), exactly as the spec's design notes instruct.

Numbers are modelled as rationals (the data in all pinned scenarios is exact),
except the studentised statistic which needs a real square root.
-/

namespace Calour

attribute [local semireducible] Rat.add Rat.sub Rat.mul Rat.inv

/-- Arithmetic mean of a list of rationals; the mean of an empty list is 0
(the spec's non-significant extreme for degenerate input). -/
def mean (xs : List ℚ) : ℚ :=
  if xs = [] then 0 else xs.sum / xs.length

/-- The values of one feature row restricted to the samples carrying label
value `g`.  Labels are modelled as the binary partition the spec requires
two-group statistics to reduce to. -/
def selectVals (row : List ℚ) (labels : List Bool) (g : Bool) : List ℚ :=
  (row.zip labels).filterMap fun p => if p.2 = g then some p.1 else none

/-- Per-feature mean difference: mean over group-1 samples minus mean over
group-2 samples.  Group 1 is the `true`-labelled group; this order is the one
fixed by the pinned scenario (meandiff of the 3x8 test matrix must be
[-30.25, 0, -0.75]). -/
def meandiffRow (row : List ℚ) (labels : List Bool) : ℚ :=
  mean (selectVals row labels true) - mean (selectVals row labels false)

/-- Modelled from the spec: `meandiff`: for each feature, mean(values where
label==group1) − mean(values where label==group2). -/
def meandiff (data : List (List ℚ)) (labels : List Bool) : List ℚ :=
  data.map (meandiffRow · labels)

/-- Population variance of a list of rationals (mean squared deviation). -/
def variance (xs : List ℚ) : ℚ :=
  mean (xs.map fun x => (x - mean xs) ^ 2)

/-- Modelled from the spec: `stdmeandiff`: meandiff divided by the
pooled/overall standard deviation of the feature's values across all samples;
if the standard deviation is zero the result is defined as 0, never
NaN/infinite.  The standard deviation is the real square root of the rational
variance. -/
noncomputable def stdmeandiffRow (row : List ℚ) (labels : List Bool) : ℝ :=
  if variance row = 0 then 0
  else (meandiffRow row labels : ℝ) / Real.sqrt (variance row : ℝ)

/-- Modelled from the spec: per-feature studentised mean difference. -/
noncomputable def stdmeandiff (data : List (List ℚ)) (labels : List Bool) : List ℝ :=
  data.map (stdmeandiffRow · labels)

/-- Average rank (1-based, midrank for ties) of the value `v` within the
multiset `xs`: (number of strictly smaller values) + (ties + 1)/2. -/
def rankOf (xs : List ℚ) (v : ℚ) : ℚ :=
  (xs.countP fun x => decide (x < v) : ℚ) +
    ((xs.countP fun x => decide (x = v) : ℚ) + 1) / 2

/-- Mann-Whitney U for one feature: rank-sum of group 1 within the pooled
sample (average-rank method for ties), converted to U, two-sidedly reduced to
the smaller of the two U values.  The reduction to the minimum is fixed by the
pinned scenario (expected vector [0, 8, 5.5]). -/
def mannwhitneyRow (row : List ℚ) (labels : List Bool) : ℚ :=
  let g1 := selectVals row labels true
  let g2 := selectVals row labels false
  let pooled := g1 ++ g2
  let r1 := (g1.map (rankOf pooled)).sum
  let u1 := r1 - (g1.length : ℚ) * ((g1.length : ℚ) + 1) / 2
  min u1 ((g1.length : ℚ) * (g2.length : ℚ) - u1)

/-- Modelled from the spec: `mannwhitney`: the Mann-Whitney U statistic
between the two groups, per feature; ties handled via average-rank method. -/
def mannwhitney (data : List (List ℚ)) (labels : List Bool) : List ℚ :=
  data.map (mannwhitneyRow · labels)

/-- One step of a linear congruential generator: the explicit random-state
handle the spec requires to be threaded through every sampling function. -/
def lcgNext (s : Nat) : Nat := (1664525 * s + 1013904223) % 4294967296

/-- Fisher-Yates style sampling without replacement: repeatedly draw a random
position of the remaining list and move that element to the front.  The fuel
argument equals the length of the list being consumed. -/
def shuffleGo {α : Type} : Nat → List α → Nat → List α × Nat
  | 0, _, s => ([], s)
  | n + 1, l, s =>
    let s2 := lcgNext s
    let j := s2 % (n + 1)
    match l.drop j with
    | [] => (l, s2)
    | x :: rest =>
      let p := shuffleGo n (l.take j ++ rest) s2
      (x :: p.1, p.2)

/-- Modelled from the spec: a Permutation is an independent random shuffle of
the Label Vector (a random permutation of the existing label multiset,
preserving group sizes).  Returns the shuffled list and the advanced random
state. -/
def shuffle {α : Type} (l : List α) (s : Nat) : List α × Nat :=
  shuffleGo l.length l s

/-- Absolute value of a rational (the two-sided comparisons work on statistic
magnitudes). -/
def ratAbs (q : ℚ) : ℚ := if q < 0 then -q else q

/-- One permutation round's contribution to the running rank counts: for each
feature, the count grows by one exactly when the magnitude of the permuted
statistic value equals or exceeds the magnitude of the observed value. -/
def countHits (obs : List ℚ) (v : List ℚ) (acc : List Nat) : List Nat :=
  List.zipWith (fun p nv => if ratAbs p.1 ≤ ratAbs nv then p.2 + 1 else p.2)
    (obs.zip acc) v

/-- Modelled from the spec: the Permutation Engine generates B independent
permuted realizations of the labels and computes the statistic for each.  The
numFeatures × B null distribution is not materialized: per the spec's data
model it is maintained as running rank counts (the per-feature number of null
values whose magnitude equals or exceeds the observed magnitude).  Returns
the final counts and the advanced random state. -/
def permCountAux (stat : List (List ℚ) → List Bool → List ℚ)
    (data : List (List ℚ)) (labels : List Bool) (obs : List ℚ) :
    Nat → Nat → List Nat → List Nat × Nat
  | 0, s, acc => (acc, s)
  | b + 1, s, acc =>
    match shuffle labels s with
    | (labs, s2) =>
      permCountAux stat data labels obs b s2 (countHits obs (stat data labs) acc)

/-- Modelled from the spec: two-sided empirical p-value per feature with
add-one correction: (count of permuted magnitudes that equal or exceed the
observed magnitude + 1) / (B + 1).  The granularity of these p-values is
1/(B+1), the minimum resolvable p-value of the permutation null. -/
def permPvals (stat : List (List ℚ) → List Bool → List ℚ) (data : List (List ℚ))
    (labels : List Bool) (numperm : Nat) (seed : Nat) : List ℚ :=
  let obs := stat data labels
  (permCountAux stat data labels obs numperm seed (obs.map fun _ => 0)).1.map
    fun c : Nat => ((c : ℚ) + 1) / ((numperm : ℚ) + 1)

/-- The largest 1-based rank k (0 when none exists) such that the k-th
smallest p-value is at most k times the given per-rank slope: the step-up
threshold search shared by all three FDR corrections. -/
def stepUpRank (ps : List ℚ) (slope : ℚ) : Nat :=
  let sorted := List.insertionSort (· ≤ ·) ps
  Nat.findGreatest (fun k => 0 < k ∧ sorted.getD (k - 1) 1 ≤ (k : ℚ) * slope) ps.length

/-- Step-up rejection vector: when some rank passes, reject exactly the
features whose p-value is at most the threshold p-value (a whole tie group is
always included or excluded together); otherwise reject nothing. -/
def stepUp (ps : List ℚ) (slope : ℚ) : List Bool :=
  let sorted := List.insertionSort (· ≤ ·) ps
  let kmax := stepUpRank ps slope
  if kmax = 0 then ps.map fun _ => false
  else ps.map fun p => decide (p ≤ sorted.getD (kmax - 1) 1)

/-- Modelled from the spec: Benjamini-Hochberg step-up on the p-values:
reject up to the largest rank k with p(k) ≤ (k/numFeatures)·alpha. -/
def bhfdr (ps : List ℚ) (alpha : ℚ) : List Bool :=
  stepUp ps (alpha / ps.length)

/-- Partial sum of the harmonic series, sum over i = 1..n of 1/i. -/
def harmonic (n : Nat) : ℚ :=
  ((List.range n).map fun i : Nat => 1 / ((i : ℚ) + 1)).sum

/-- Modelled from the spec: Benjamini-Yekutieli step-up: same structure as BH
with threshold (k / (numFeatures · sum over i of 1/i)) · alpha. -/
def byfdr (ps : List ℚ) (alpha : ℚ) : List Bool :=
  stepUp ps (alpha / (ps.length * harmonic ps.length))

/-- Modelled from the spec: the discrete-FDR correction is the step-up
threshold search p(k) ≤ (k/numFeatures)·alpha applied to the permutation
p-values, whose add-one construction already carries the 1/(B+1) granularity
that accounts for the discreteness of the permutation null. -/
def dsfdrCorrection (ps : List ℚ) (alpha : ℚ) : List Bool :=
  stepUp ps (alpha / ps.length)

/-- The statistic dispatch enum of the orchestrator (the two statistics the
pinned scenarios exercise). -/
inductive Method
  | meandiff
  | mannwhitney
deriving DecidableEq

/-- The value-transform dispatch enum of the orchestrator. -/
inductive Transform
  | noTransform
  | rankTransform
deriving DecidableEq

/-- The FDR-method dispatch enum of the orchestrator. -/
inductive FdrMethod
  | dsfdr
  | bhfdr
  | byfdr
deriving DecidableEq

/-- The orchestrator's error taxonomy: invalid configuration (alpha outside
(0,1)) and shape mismatch, both fatal. -/
inductive DsfdrError
  | invalidAlpha
  | shapeMismatch
deriving DecidableEq

/-- Apply the chosen value transform to the matrix (identically for the
observed and every permuted computation, since it transforms the matrix
itself). -/
def applyTransform : Transform → List (List ℚ) → List (List ℚ)
  | .noTransform, d => d
  | .rankTransform, d => d.map fun row => row.map (rankOf row)

/-- Statistic-name dispatch table. -/
def statOf : Method → List (List ℚ) → List Bool → List ℚ
  | .meandiff => meandiff
  | .mannwhitney => mannwhitney

/-- FDR-method dispatch table. -/
def applyFdr : FdrMethod → List ℚ → ℚ → List Bool
  | .dsfdr, ps, a => dsfdrCorrection ps a
  | .bhfdr, ps, a => bhfdr ps a
  | .byfdr, ps, a => byfdr ps a

/-- Modelled from the spec: the Orchestrator.  Validates alpha and the
matrix/labels shape first (configuration and shape errors are fatal, surfaced
before any computation, no partial results), applies the transform, computes
the observed statistic, drives the Permutation Engine with the seeded random
state, converts to p-values and applies the chosen FDR correction.  Returns
the tuple (rejected, observed statistic, p-values). -/
def dsfdr (data : List (List ℚ)) (labels : List Bool) (method : Method)
    (transform : Transform) (alpha : ℚ) (numperm : Nat) (fdrmethod : FdrMethod)
    (seed : Nat) : Except DsfdrError (List Bool × List ℚ × List ℚ) :=
  if alpha ≤ 0 ∨ 1 ≤ alpha then .error .invalidAlpha
  else if data.all fun row => row.length == labels.length then
    let tdata := applyTransform transform data
    let obs := statOf method tdata labels
    let ps := permPvals (statOf method) tdata labels numperm seed
    .ok (applyFdr fdrmethod ps alpha, obs, ps)
  else .error .shapeMismatch

/-- Number of rejected features in a rejection vector. -/
def countTrue (l : List Bool) : Nat := l.count true


/-- The abundance matrix of the pinned orchestrator scenario (test_dsfdr). -/
def c1data : List (List ℚ) :=
  [[0, 1, 3, 5, 0, 1, 100, 300, 400, 500, 600, 700],
   [1, 2, 3, 4, 5, 6, 6, 5, 4, 3, 2, 1],
   [0, 0, 0, 0, 0, 1, 0, 0, 0, 3, 0, 1]]

/-- The label vector of the pinned orchestrator scenario. -/
def c1labels : List Bool :=
  [true, true, true, true, true, true, false, false, false, false, false, false]

/-- The observed meandiff statistic of the pinned scenario. -/
def c1obs : List ℚ := [-1295/3, 0, -1/2]

/-- Splitting a permutation-count run: running m + n rounds equals running m
rounds and continuing for n rounds from the reached random state and counts
(the accumulated counts are commutative sums, so rounds can be chunked). -/
theorem permCountAux_add (stat : List (List ℚ) → List Bool → List ℚ)
    (data : List (List ℚ)) (labels : List Bool) (obs : List ℚ)
    (m n : Nat) : ∀ (s : Nat) (acc : List Nat),
    permCountAux stat data labels obs (m + n) s acc =
      permCountAux stat data labels obs n
        (permCountAux stat data labels obs m s acc).2
        (permCountAux stat data labels obs m s acc).1 := by
  induction m with
  | zero => intro s acc; simp [permCountAux]
  | succ k ih =>
    intro s acc
    rw [Nat.succ_add]
    rcases hsh : shuffle labels s with ⟨labs, s2⟩
    simp only [permCountAux, hsh]
    exact ih s2 (countHits obs (stat data labs) acc)

/-- Chunked restatement of `permCountAux_add` for 50-round blocks with the
reached state given explicitly. -/
theorem permCountAux_chunk {stat : List (List ℚ) → List Bool → List ℚ}
    {data : List (List ℚ)} {labels : List Bool} {obs : List ℚ}
    (n : Nat) {s : Nat} {acc c2 : List Nat} {s2 : Nat}
    (h : permCountAux stat data labels obs 50 s acc = (c2, s2)) :
    permCountAux stat data labels obs (50 + n) s acc =
      permCountAux stat data labels obs n s2 c2 := by
  rw [permCountAux_add, h]

set_option maxRecDepth 20000 in
/-- Permutation rounds 1-50 of the pinned scenario. -/
theorem c1chunk01 :
    permCountAux meandiff c1data c1labels c1obs 50 31
      [0, 0, 0] =
      ([1, 50, 31], 4025004023) := by
  decide

set_option maxRecDepth 20000 in
/-- Permutation rounds 51-100 of the pinned scenario. -/
theorem c1chunk02 :
    permCountAux meandiff c1data c1labels c1obs 50 4025004023
      [1, 50, 31] =
      ([1, 100, 64], 3990849743) := by
  decide

set_option maxRecDepth 20000 in
/-- Permutation rounds 101-150 of the pinned scenario. -/
theorem c1chunk03 :
    permCountAux meandiff c1data c1labels c1obs 50 3990849743
      [1, 100, 64] =
      ([2, 150, 91], 4192266919) := by
  decide

set_option maxRecDepth 20000 in
/-- Permutation rounds 151-200 of the pinned scenario. -/
theorem c1chunk04 :
    permCountAux meandiff c1data c1labels c1obs 50 4192266919
      [2, 150, 91] =
      ([3, 200, 124], 3563926911) := by
  decide

set_option maxRecDepth 20000 in
/-- Permutation rounds 201-250 of the pinned scenario. -/
theorem c1chunk05 :
    permCountAux meandiff c1data c1labels c1obs 50 3563926911
      [3, 200, 124] =
      ([3, 250, 157], 1141426519) := by
  decide

set_option maxRecDepth 20000 in
/-- Permutation rounds 251-300 of the pinned scenario. -/
theorem c1chunk06 :
    permCountAux meandiff c1data c1labels c1obs 50 1141426519
      [3, 250, 157] =
      ([3, 300, 191], 3938190895) := by
  decide

set_option maxRecDepth 20000 in
/-- Permutation rounds 301-350 of the pinned scenario. -/
theorem c1chunk07 :
    permCountAux meandiff c1data c1labels c1obs 50 3938190895
      [3, 300, 191] =
      ([4, 350, 219], 2878557191) := by
  decide

set_option maxRecDepth 20000 in
/-- Permutation rounds 351-400 of the pinned scenario. -/
theorem c1chunk08 :
    permCountAux meandiff c1data c1labels c1obs 50 2878557191
      [4, 350, 219] =
      ([4, 400, 247], 2686384863) := by
  decide

set_option maxRecDepth 20000 in
/-- Permutation rounds 401-450 of the pinned scenario. -/
theorem c1chunk09 :
    permCountAux meandiff c1data c1labels c1obs 50 2686384863
      [4, 400, 247] =
      ([4, 450, 275], 2649977527) := by
  decide

set_option maxRecDepth 20000 in
/-- Permutation rounds 451-500 of the pinned scenario. -/
theorem c1chunk10 :
    permCountAux meandiff c1data c1labels c1obs 50 2649977527
      [4, 450, 275] =
      ([4, 500, 303], 1277760399) := by
  decide

set_option maxRecDepth 20000 in
/-- Permutation rounds 501-550 of the pinned scenario. -/
theorem c1chunk11 :
    permCountAux meandiff c1data c1labels c1obs 50 1277760399
      [4, 500, 303] =
      ([4, 550, 331], 3369876839) := by
  decide

set_option maxRecDepth 20000 in
/-- Permutation rounds 551-600 of the pinned scenario. -/
theorem c1chunk12 :
    permCountAux meandiff c1data c1labels c1obs 50 3369876839
      [4, 550, 331] =
      ([4, 600, 367], 3735900223) := by
  decide

set_option maxRecDepth 20000 in
/-- Permutation rounds 601-650 of the pinned scenario. -/
theorem c1chunk13 :
    permCountAux meandiff c1data c1labels c1obs 50 3735900223
      [4, 600, 367] =
      ([4, 650, 397], 3393235991) := by
  decide

set_option maxRecDepth 20000 in
/-- Permutation rounds 651-700 of the pinned scenario. -/
theorem c1chunk14 :
    permCountAux meandiff c1data c1labels c1obs 50 3393235991
      [4, 650, 397] =
      ([4, 700, 430], 2411639023) := by
  decide

set_option maxRecDepth 20000 in
/-- Permutation rounds 701-750 of the pinned scenario. -/
theorem c1chunk15 :
    permCountAux meandiff c1data c1labels c1obs 50 2411639023
      [4, 700, 430] =
      ([4, 750, 462], 3763584711) := by
  decide

set_option maxRecDepth 20000 in
/-- Permutation rounds 751-800 of the pinned scenario. -/
theorem c1chunk16 :
    permCountAux meandiff c1data c1labels c1obs 50 3763584711
      [4, 750, 462] =
      ([4, 800, 495], 2410689951) := by
  decide

set_option maxRecDepth 20000 in
/-- Permutation rounds 801-850 of the pinned scenario. -/
theorem c1chunk17 :
    permCountAux meandiff c1data c1labels c1obs 50 2410689951
      [4, 800, 495] =
      ([4, 850, 526], 2575857015) := by
  decide

set_option maxRecDepth 20000 in
/-- Permutation rounds 851-900 of the pinned scenario. -/
theorem c1chunk18 :
    permCountAux meandiff c1data c1labels c1obs 50 2575857015
      [4, 850, 526] =
      ([4, 900, 556], 3071598159) := by
  decide

set_option maxRecDepth 20000 in
/-- Permutation rounds 901-950 of the pinned scenario. -/
theorem c1chunk19 :
    permCountAux meandiff c1data c1labels c1obs 50 3071598159
      [4, 900, 556] =
      ([4, 950, 583], 2224148519) := by
  decide

set_option maxRecDepth 20000 in
/-- Permutation rounds 951-1000 of the pinned scenario. -/
theorem c1chunk20 :
    permCountAux meandiff c1data c1labels c1obs 50 2224148519
      [4, 950, 583] =
      ([5, 1000, 613], 918530815) := by
  decide

/-- The full 1000-round permutation run of the pinned scenario, assembled
from the 50-round chunks. -/
theorem c1counts :
    permCountAux meandiff c1data c1labels c1obs 1000 31 [0, 0, 0] =
      ([5, 1000, 613], 918530815) :=
  (permCountAux_chunk 950 c1chunk01).trans <|
  (permCountAux_chunk 900 c1chunk02).trans <|
  (permCountAux_chunk 850 c1chunk03).trans <|
  (permCountAux_chunk 800 c1chunk04).trans <|
  (permCountAux_chunk 750 c1chunk05).trans <|
  (permCountAux_chunk 700 c1chunk06).trans <|
  (permCountAux_chunk 650 c1chunk07).trans <|
  (permCountAux_chunk 600 c1chunk08).trans <|
  (permCountAux_chunk 550 c1chunk09).trans <|
  (permCountAux_chunk 500 c1chunk10).trans <|
  (permCountAux_chunk 450 c1chunk11).trans <|
  (permCountAux_chunk 400 c1chunk12).trans <|
  (permCountAux_chunk 350 c1chunk13).trans <|
  (permCountAux_chunk 300 c1chunk14).trans <|
  (permCountAux_chunk 250 c1chunk15).trans <|
  (permCountAux_chunk 200 c1chunk16).trans <|
  (permCountAux_chunk 150 c1chunk17).trans <|
  (permCountAux_chunk 100 c1chunk18).trans <|
  (permCountAux_chunk 50 c1chunk19).trans <|
  c1chunk20

/-- The observed meandiff statistic of the pinned scenario evaluates to
[-1295/3, 0, -1/2]. -/
theorem c1obs_eq : meandiff c1data c1labels = c1obs := by decide

/-- Unfolding of `permPvals` against a precomputed permutation-count run. -/
theorem permPvals_eq {stat : List (List ℚ) → List Bool → List ℚ}
    {data : List (List ℚ)} {labels : List Bool} {obs0 : List ℚ}
    {numperm seed : Nat} {counts : List Nat} {sfin : Nat}
    (hobs : stat data labels = obs0)
    (hcnt : permCountAux stat data labels obs0 numperm seed (obs0.map fun _ => 0)
      = (counts, sfin)) :
    permPvals stat data labels numperm seed =
      counts.map fun c : Nat => ((c : ℚ) + 1) / ((numperm : ℚ) + 1) := by
  simp only [permPvals]
  rw [hobs, hcnt]

/-- The empirical p-values of the pinned scenario: [6/1001, 1, 614/1001]. -/
theorem c1pvals :
    permPvals meandiff c1data c1labels 1000 31 = [6/1001, 1, 614/1001] := by
  rw [permPvals_eq c1obs_eq c1counts]
  decide

/-- The orchestrator's full result on the pinned scenario, for every choice
of FDR method. -/
theorem c1run (fm : FdrMethod) :
    dsfdr c1data c1labels .meandiff .noTransform (1/10) 1000 fm 31 =
      .ok (applyFdr fm [6/1001, 1, 614/1001] (1/10), c1obs, [6/1001, 1, 614/1001]) := by
  unfold dsfdr
  rw [if_neg (by norm_num), if_pos (by decide)]
  simp only [statOf, applyTransform]
  rw [c1pvals, c1obs_eq]

/-- C1: For the matrix [[0,1,3,5,0,1,100,300,400,500,600,700],
[1,2,3,4,5,6,6,5,4,3,2,1],[0,0,0,0,0,1,0,0,0,3,0,1]] with labels
[1,1,1,1,1,1,0,0,0,0,0,0], method meandiff, transform none, alpha = 0.1,
numperm = 1000 (seed 31), the orchestrator's rejection vector equals
[true, false, false] for each of the three fdrmethod choices dsfdr, bhfdr
and byfdr. -/
theorem c1_rejections :
    ((dsfdr c1data c1labels .meandiff .noTransform (1/10) 1000 .dsfdr 31).map Prod.fst
        = .ok [true, false, false]) ∧
    ((dsfdr c1data c1labels .meandiff .noTransform (1/10) 1000 .bhfdr 31).map Prod.fst
        = .ok [true, false, false]) ∧
    ((dsfdr c1data c1labels .meandiff .noTransform (1/10) 1000 .byfdr 31).map Prod.fst
        = .ok [true, false, false]) := by
  refine ⟨?_, ?_, ?_⟩ <;>
    (rw [c1run]; simp only [Except.map]; exact congrArg Except.ok (by decide))

/-- C2: for every matrix and binary label vector, meandiff returns one value
per feature, equal to the group-1 mean minus the group-2 mean of that
feature's values; on the pinned 3x8 matrix it returns exactly
[-30.25, 0, -0.75]. -/
theorem c2_meandiff :
    (∀ (data : List (List ℚ)) (labels : List Bool),
      (meandiff data labels).length = data.length ∧
      ∀ (i : Nat) (row : List ℚ), data[i]? = some row →
        (meandiff data labels)[i]? =
          some (mean (selectVals row labels true) - mean (selectVals row labels false))) ∧
    meandiff [[0, 1, 3, 5, 10, 30, 40, 50], [1, 2, 3, 4, 4, 3, 2, 1], [0, 0, 0, 1, 0, 3, 0, 1]]
      [true, true, true, true, false, false, false, false] = [-121/4, 0, -3/4] := by
  refine ⟨fun data labels => ⟨by simp [meandiff], fun i row h => ?_⟩, by decide⟩
  simp [meandiff, List.getElem?_map, h, meandiffRow]

/-- Witness for C2: the per-feature formula instantiated on a concrete
one-feature matrix. -/
theorem c2_witness :
    ((meandiff [[0, 1, 3, 5, 10, 30, 40, 50]] [true, true, true, true, false, false, false, false])[0]?
      = some (mean (selectVals [0, 1, 3, 5, 10, 30, 40, 50] [true, true, true, true, false, false, false, false] true)
        - mean (selectVals [0, 1, 3, 5, 10, 30, 40, 50] [true, true, true, true, false, false, false, false] false))) :=
  (c2_meandiff.1 _ _).2 0 _ (by decide)

/-- C3: for every matrix and binary label vector, mannwhitney returns one
value per feature: the Mann-Whitney U statistic computed from average ranks
(midranks for ties), reduced to the smaller of the two U values; on the
pinned 3x8 matrix it returns exactly [0, 8, 5.5]. -/
theorem c3_mannwhitney :
    (∀ (data : List (List ℚ)) (labels : List Bool),
      (mannwhitney data labels).length = data.length ∧
      ∀ (i : Nat) (row : List ℚ), data[i]? = some row →
        (mannwhitney data labels)[i]? =
          some (min
            ((((selectVals row labels true).map
                (rankOf (selectVals row labels true ++ selectVals row labels false))).sum
              - ((selectVals row labels true).length : ℚ)
                * (((selectVals row labels true).length : ℚ) + 1) / 2))
            (((selectVals row labels true).length : ℚ)
                * ((selectVals row labels false).length : ℚ)
              - (((selectVals row labels true).map
                  (rankOf (selectVals row labels true ++ selectVals row labels false))).sum
                - ((selectVals row labels true).length : ℚ)
                  * (((selectVals row labels true).length : ℚ) + 1) / 2)))) ∧
    mannwhitney [[0, 1, 3, 5, 10, 30, 40, 50], [1, 2, 3, 4, 4, 3, 2, 1], [0, 0, 0, 1, 0, 3, 0, 1]]
      [true, true, true, true, false, false, false, false] = [0, 8, 11/2] := by
  refine ⟨fun data labels => ⟨by simp [mannwhitney], fun i row h => ?_⟩, by decide⟩
  simp [mannwhitney, List.getElem?_map, h, mannwhitneyRow]

/-- Witness for C3: the per-feature U formula instantiated on a concrete
one-feature matrix (the ties-heavy third row of the pinned scenario). -/
theorem c3_witness :
    (mannwhitney [[0, 0, 0, 1, 0, 3, 0, 1]] [true, true, true, true, false, false, false, false])[0]?
      = some (min
        ((((selectVals [0, 0, 0, 1, 0, 3, 0, 1] [true, true, true, true, false, false, false, false] true).map
            (rankOf (selectVals [0, 0, 0, 1, 0, 3, 0, 1] [true, true, true, true, false, false, false, false] true
              ++ selectVals [0, 0, 0, 1, 0, 3, 0, 1] [true, true, true, true, false, false, false, false] false))).sum
          - ((selectVals [0, 0, 0, 1, 0, 3, 0, 1] [true, true, true, true, false, false, false, false] true).length : ℚ)
            * (((selectVals [0, 0, 0, 1, 0, 3, 0, 1] [true, true, true, true, false, false, false, false] true).length : ℚ) + 1) / 2))
        (((selectVals [0, 0, 0, 1, 0, 3, 0, 1] [true, true, true, true, false, false, false, false] true).length : ℚ)
            * ((selectVals [0, 0, 0, 1, 0, 3, 0, 1] [true, true, true, true, false, false, false, false] false).length : ℚ)
          - (((selectVals [0, 0, 0, 1, 0, 3, 0, 1] [true, true, true, true, false, false, false, false] true).map
              (rankOf (selectVals [0, 0, 0, 1, 0, 3, 0, 1] [true, true, true, true, false, false, false, false] true
                ++ selectVals [0, 0, 0, 1, 0, 3, 0, 1] [true, true, true, true, false, false, false, false] false))).sum
            - ((selectVals [0, 0, 0, 1, 0, 3, 0, 1] [true, true, true, true, false, false, false, false] true).length : ℚ)
              * (((selectVals [0, 0, 0, 1, 0, 3, 0, 1] [true, true, true, true, false, false, false, false] true).length : ℚ) + 1) / 2))) :=
  (c3_mannwhitney.1 _ _).2 0 _ (by decide)

/-- C4: stdmeandiff maps every zero-variance feature to exactly 0 (never a
NaN or infinity, which the real-valued model excludes by construction), and
every feature with nonzero variance to meandiff divided by the standard
deviation of all the feature's values. -/
theorem c4_stdmeandiff :
    ∀ (data : List (List ℚ)) (labels : List Bool) (i : Nat) (row : List ℚ),
      data[i]? = some row →
      (variance row = 0 → (stdmeandiff data labels)[i]? = some 0) ∧
      (variance row ≠ 0 → (stdmeandiff data labels)[i]? =
        some ((meandiffRow row labels : ℝ) / Real.sqrt ((variance row : ℚ) : ℝ))) := by
  intro data labels i row h
  constructor
  · intro hv
    simp [stdmeandiff, List.getElem?_map, h, stdmeandiffRow, hv]
  · intro hv
    simp [stdmeandiff, List.getElem?_map, h, stdmeandiffRow, hv]

/-- Witness for C4: a constant feature row maps to 0, and a nonconstant one
to the studentised mean difference. -/
theorem c4_witness :
    ((stdmeandiff [[1, 1], [0, 2]] [true, false])[0]? = some 0) ∧
    ((stdmeandiff [[1, 1], [0, 2]] [true, false])[1]? =
      some ((meandiffRow [0, 2] [true, false] : ℝ)
        / Real.sqrt ((variance [0, 2] : ℚ) : ℝ))) :=
  ⟨(c4_stdmeandiff [[1, 1], [0, 2]] [true, false] 0 [1, 1] (by decide)).1 (by decide),
   (c4_stdmeandiff [[1, 1], [0, 2]] [true, false] 1 [0, 2] (by decide)).2 (by decide)⟩

/-- An all-false rejection vector has no true entry at any index. -/
theorem getD_map_false (ps : List ℚ) (i : Nat) :
    (ps.map fun _ => false).getD i false = false := by
  induction ps generalizing i with
  | nil => rfl
  | cons x xs ih => cases i with
    | zero => rfl
    | succ j => exact ih j

/-- In a sorted list, values at larger in-range indices dominate. -/
theorem sorted_getD_mono {l : List ℚ} (hs : l.Sorted (fun a b => a ≤ b)) {i j : Nat}
    (hij : i ≤ j) (hj : j < l.length) (d : ℚ) : l.getD i d ≤ l.getD j d := by
  have hi : i < l.length := lt_of_le_of_lt hij hj
  rw [List.getD_eq_getElem?_getD, List.getD_eq_getElem?_getD,
    List.getElem?_eq_getElem hi, List.getElem?_eq_getElem hj]
  rcases Nat.eq_or_lt_of_le hij with rfl | hlt
  · simp
  · simpa using hs.rel_get_of_lt (a := ⟨i, hi⟩) (b := ⟨j, hj⟩) hlt

/-- The step-up rank search is monotone in the per-rank slope. -/
theorem stepUpRank_mono (ps : List ℚ) {a b : ℚ} (hab : a ≤ b) :
    stepUpRank ps a ≤ stepUpRank ps b := by
  unfold stepUpRank
  refine Nat.findGreatest_mono_left (fun k hk => ⟨hk.1, hk.2.trans ?_⟩) _
  exact mul_le_mul_of_nonneg_left hab (by positivity)

/-- The step-up rank never exceeds the number of features. -/
theorem stepUpRank_le (ps : List ℚ) (a : ℚ) : stepUpRank ps a ≤ ps.length :=
  Nat.findGreatest_le _

/-- Pointwise monotonicity of the step-up rejection vector in the slope:
every feature rejected at the smaller slope is rejected at the larger one. -/
theorem stepUp_mono {ps : List ℚ} {a b : ℚ} (hab : a ≤ b) {i : Nat}
    (h : (stepUp ps a).getD i false = true) :
    (stepUp ps b).getD i false = true := by
  unfold stepUp at h ⊢
  by_cases h1 : stepUpRank ps a = 0
  · rw [if_pos h1, getD_map_false] at h
    exact absurd h (by simp)
  · have h12 : stepUpRank ps a ≤ stepUpRank ps b := stepUpRank_mono ps hab
    have h2 : stepUpRank ps b ≠ 0 := by omega
    rw [if_neg h1] at h
    rw [if_neg h2]
    by_cases hi : i < ps.length
    · rw [List.getD_eq_getElem?_getD, List.getElem?_eq_getElem (by simp [hi])] at h ⊢
      simp only [List.getElem_map, Option.getD_some, decide_eq_true_eq] at h ⊢
      refine le_trans h (sorted_getD_mono (List.sorted_insertionSort _ ps) (by omega) ?_ 1)
      rw [List.length_insertionSort]
      have := stepUpRank_le ps b
      omega
    · rw [List.getD_eq_getElem?_getD, List.getElem?_eq_none (by simp; omega)] at h
      exact absurd h (by simp)

/-- Counting true entries of a mapped predicate is counting the predicate. -/
theorem count_true_map (l : List ℚ) (f : ℚ → Bool) :
    countTrue (l.map f) = l.countP f := by
  induction l with
  | nil => rfl
  | cons x xs ih =>
    by_cases hx : f x
    · simp [countTrue, List.count_cons, hx, List.countP_cons] at ih ⊢
      omega
    · simp [countTrue, List.count_cons, hx, List.countP_cons] at ih ⊢
      omega

/-- The number of step-up rejections is monotone in the slope. -/
theorem countTrue_stepUp_mono (ps : List ℚ) {a b : ℚ} (hab : a ≤ b) :
    countTrue (stepUp ps a) ≤ countTrue (stepUp ps b) := by
  by_cases h1 : stepUpRank ps a = 0
  · have : countTrue (stepUp ps a) = 0 := by
      unfold stepUp
      rw [if_pos h1, count_true_map]
      simp [List.countP_eq_zero]
    omega
  · have h2 : stepUpRank ps b ≠ 0 := by
      have := stepUpRank_mono ps hab
      omega
    unfold stepUp
    rw [if_neg h1, if_neg h2, count_true_map, count_true_map]
    refine List.countP_mono_left fun x hx hle => ?_
    simp only [decide_eq_true_eq] at hle ⊢
    refine le_trans hle (sorted_getD_mono (List.sorted_insertionSort _ ps) ?_ ?_ 1)
    · have := stepUpRank_mono ps hab
      omega
    · rw [List.length_insertionSort]
      have := stepUpRank_le ps b
      omega

/-- Recurrence of the harmonic partial sum. -/
theorem harmonic_succ (n : Nat) : harmonic (n + 1) = harmonic n + 1 / ((n : ℚ) + 1) := by
  unfold harmonic
  rw [List.range_succ, List.map_append, List.sum_append]
  simp

/-- Harmonic partial sums are nonnegative. -/
theorem harmonic_nonneg (n : Nat) : 0 ≤ harmonic n := by
  induction n with
  | zero => simp [harmonic]
  | succ k ih =>
    rw [harmonic_succ]
    have h2 : 0 ≤ 1 / ((k : ℚ) + 1) := by positivity
    linarith

/-- With at least one feature the harmonic correction factor is at least 1. -/
theorem one_le_harmonic (n : Nat) (hn : n ≠ 0) : 1 ≤ harmonic n := by
  induction n with
  | zero => exact absurd rfl hn
  | succ k ih =>
    rw [harmonic_succ]
    rcases Nat.eq_zero_or_pos k with rfl | hk
    · norm_num [harmonic]
    · have h1 := ih (by omega)
      have h2 : 0 ≤ 1 / ((k : ℚ) + 1) := by positivity
      linarith

/-- Division by a nonnegative rational preserves order. -/
theorem div_le_div_nonneg_right {a b c : ℚ} (hab : a ≤ b) (hc : 0 ≤ c) :
    a / c ≤ b / c := by
  rw [div_eq_mul_inv, div_eq_mul_inv]
  exact mul_le_mul_of_nonneg_right hab (inv_nonneg.2 hc)

/-- Unfolding of the orchestrator on a valid configuration. -/
theorem dsfdr_valid {data : List (List ℚ)} {labels : List Bool} {method : Method}
    {transform : Transform} {alpha : ℚ} {numperm seed : Nat} (fm : FdrMethod)
    (hv : ¬(alpha ≤ 0 ∨ 1 ≤ alpha))
    (hsh : (data.all fun row => row.length == labels.length) = true) :
    dsfdr data labels method transform alpha numperm fm seed =
      .ok (applyFdr fm
            (permPvals (statOf method) (applyTransform transform data) labels numperm seed)
            alpha,
          statOf method (applyTransform transform data) labels,
          permPvals (statOf method) (applyTransform transform data) labels numperm seed) := by
  unfold dsfdr
  rw [if_neg hv, if_pos hsh]

/-- A successful orchestrator run implies the configuration was valid. -/
theorem dsfdr_ok_valid {data : List (List ℚ)} {labels : List Bool} {method : Method}
    {transform : Transform} {alpha : ℚ} {numperm seed : Nat} {fm : FdrMethod}
    {r : List Bool × List ℚ × List ℚ}
    (h : dsfdr data labels method transform alpha numperm fm seed = .ok r) :
    ¬(alpha ≤ 0 ∨ 1 ≤ alpha) ∧
      (data.all fun row => row.length == labels.length) = true := by
  unfold dsfdr at h
  by_cases hv : alpha ≤ 0 ∨ 1 ≤ alpha
  · rw [if_pos hv] at h
    cases h
  · by_cases hsh : (data.all fun row => row.length == labels.length) = true
    · exact ⟨hv, hsh⟩
    · rw [if_neg hv, if_neg hsh] at h
      cases h

/-- C6: for fixed data, labels, method, transform, numperm, fdrmethod and
seed, and any two alpha levels with alpha1 at most alpha2 on which the
orchestrator succeeds, the number of rejected features at alpha2 is at least
the number rejected at alpha1 (all three FDR methods). -/
theorem c6_alpha_mono :
    ∀ (data : List (List ℚ)) (labels : List Bool) (method : Method)
      (transform : Transform) (numperm seed : Nat) (fm : FdrMethod)
      (a1 a2 : ℚ) (r1 r2 : List Bool × List ℚ × List ℚ),
      a1 ≤ a2 →
      dsfdr data labels method transform a1 numperm fm seed = .ok r1 →
      dsfdr data labels method transform a2 numperm fm seed = .ok r2 →
      countTrue r1.1 ≤ countTrue r2.1 := by
  intro data labels method transform numperm seed fm a1 a2 r1 r2 hab h1 h2
  obtain ⟨hv1, hsh⟩ := dsfdr_ok_valid h1
  obtain ⟨hv2, -⟩ := dsfdr_ok_valid h2
  rw [dsfdr_valid fm hv1 hsh] at h1
  rw [dsfdr_valid fm hv2 hsh] at h2
  have e1 := (Except.ok.inj h1).symm
  have e2 := (Except.ok.inj h2).symm
  subst e1 e2
  dsimp only
  cases fm <;>
    simp only [applyFdr, dsfdrCorrection, bhfdr, byfdr] <;>
    refine countTrue_stepUp_mono _ (div_le_div_nonneg_right hab ?_)
  · positivity
  · positivity
  · have := harmonic_nonneg
      (permPvals (statOf method) (applyTransform transform data) labels numperm seed).length
    positivity

/-- C7: for every p-value vector and alpha in (0,1), every feature rejected
by the Benjamini-Yekutieli step-up is also rejected by the Benjamini-Hochberg
step-up on the same p-values. -/
theorem c7_by_subset_bh :
    ∀ (ps : List ℚ) (alpha : ℚ), 0 < alpha → alpha < 1 →
      ∀ i : Nat, (byfdr ps alpha).getD i false = true →
        (bhfdr ps alpha).getD i false = true := by
  intro ps alpha ha0 _ i h
  unfold byfdr at h
  unfold bhfdr
  refine stepUp_mono ?_ h
  rcases Nat.eq_zero_or_pos ps.length with hn | hn
  · rw [hn]
    norm_num
  · have hH : 1 ≤ harmonic ps.length := one_le_harmonic _ (by omega)
    have hn0 : (0 : ℚ) < ps.length := by exact_mod_cast hn
    rw [div_eq_mul_inv, div_eq_mul_inv]
    refine mul_le_mul_of_nonneg_left ?_ (le_of_lt ha0)
    refine inv_anti₀ hn0 ?_
    nlinarith

/-- Witness for C7: a concrete p-value vector on which BY rejects feature 0,
hence so does BH. -/
theorem c7_witness :
    (bhfdr [1/100, 1/2, 1] (1/2)).getD 0 false = true :=
  c7_by_subset_bh [1/100, 1/2, 1] (1/2) (by norm_num) (by norm_num) 0 (by decide)

/-- C5: the orchestrator is deterministic: two successful invocations with
identical matrix, labels, method, transform, alpha, numperm, fdrmethod and
seed produce equal rejection vectors, equal observed-statistic vectors and
equal p-value vectors. -/
theorem c5_determinism :
    ∀ (data : List (List ℚ)) (labels : List Bool) (method : Method)
      (transform : Transform) (alpha : ℚ) (numperm seed : Nat) (fm : FdrMethod)
      (r1 r2 : List Bool × List ℚ × List ℚ),
      dsfdr data labels method transform alpha numperm fm seed = .ok r1 →
      dsfdr data labels method transform alpha numperm fm seed = .ok r2 →
      r1.1 = r2.1 ∧ r1.2.1 = r2.2.1 ∧ r1.2.2 = r2.2.2 := by
  intro data labels method transform alpha numperm seed fm r1 r2 h1 h2
  have h := Except.ok.inj (h1.symm.trans h2)
  subst h
  exact ⟨rfl, rfl, rfl⟩

/-- Witness for C5 at a concrete small run. -/
theorem c5_witness :
    (([false], [-10], [3/11]) : List Bool × List ℚ × List ℚ).1 = ([false], [-10], [3/11]).1 ∧
      (([false], [-10], [3/11]) : List Bool × List ℚ × List ℚ).2.1 = ([false], [-10], [3/11]).2.1 ∧
      (([false], [-10], [3/11]) : List Bool × List ℚ × List ℚ).2.2 = ([false], [-10], [3/11]).2.2 :=
  c5_determinism [[0, 0, 0, 10, 10, 10]] [true, true, true, false, false, false]
    .meandiff .noTransform (1/20) 10 7 .bhfdr _ _ (by rfl) (by rfl)

/-- C8: whenever alpha is at least 1 or at most 0, the orchestrator fails
immediately with the configuration error invalidAlpha and returns no partial
result. -/
theorem c8_invalid_alpha :
    ∀ (data : List (List ℚ)) (labels : List Bool) (method : Method)
      (transform : Transform) (alpha : ℚ) (numperm seed : Nat) (fm : FdrMethod),
      (1 ≤ alpha ∨ alpha ≤ 0) →
      dsfdr data labels method transform alpha numperm fm seed = .error .invalidAlpha := by
  intro data labels method transform alpha numperm seed fm h
  unfold dsfdr
  rw [if_pos (Or.symm h)]

/-- Witness for C8 at alpha = 2. -/
theorem c8_witness :
    dsfdr [[1, 2], [3, 4]] [true, false] .meandiff .noTransform 2 100 .dsfdr 5 =
      .error .invalidAlpha :=
  c8_invalid_alpha [[1, 2], [3, 4]] [true, false] .meandiff .noTransform 2 100 5 .dsfdr
    (by norm_num)

/-- Every dispatched statistic returns the empty vector on a zero-feature
matrix. -/
theorem statOf_nil (method : Method) (labels : List Bool) :
    statOf method [] labels = [] := by
  cases method <;> rfl

/-- Every transform maps the empty matrix to itself. -/
theorem applyTransform_nil (transform : Transform) :
    applyTransform transform [] = [] := by
  cases transform <;> rfl

/-- The running counts of a zero-feature run stay empty. -/
theorem permCountAux_nil_obs (stat : List (List ℚ) → List Bool → List ℚ)
    (data : List (List ℚ)) (labels : List Bool) :
    ∀ (n s : Nat), (permCountAux stat data labels [] n s []).1 = [] := by
  intro n
  induction n with
  | zero => intro s; rfl
  | succ k ih =>
    intro s
    rcases hsh : shuffle labels s with ⟨labs, s2⟩
    simp only [permCountAux, hsh, countHits, List.zip_nil_left, List.zipWith_nil_left]
    exact ih s2

/-- The p-value vector of a zero-feature run is empty. -/
theorem permPvals_nil (stat : List (List ℚ) → List Bool → List ℚ)
    (labels : List Bool) (hobs : stat [] labels = []) (n s : Nat) :
    permPvals stat [] labels n s = [] := by
  simp only [permPvals]
  rw [hobs]
  simp only [List.map_nil]
  rw [permCountAux_nil_obs]
  rfl

/-- Every FDR correction maps an empty p-value vector to an empty rejection
vector. -/
theorem applyFdr_nil (fm : FdrMethod) (alpha : ℚ) : applyFdr fm [] alpha = [] := by
  cases fm <;> rfl

/-- C9: on a matrix with zero features and any valid alpha, the orchestrator
returns successfully with an empty rejection vector (and empty statistic and
p-value vectors) - no error is raised. -/
theorem c9_empty :
    ∀ (labels : List Bool) (method : Method) (transform : Transform)
      (alpha : ℚ) (numperm seed : Nat) (fm : FdrMethod),
      ¬(alpha ≤ 0 ∨ 1 ≤ alpha) →
      dsfdr [] labels method transform alpha numperm fm seed = .ok ([], [], []) := by
  intro labels method transform alpha numperm seed fm hv
  rw [dsfdr_valid fm hv (by rfl)]
  rw [applyTransform_nil]
  rw [permPvals_nil (statOf method) labels (statOf_nil method labels)]
  rw [statOf_nil, applyFdr_nil]

/-- Witness for C9 at a concrete configuration. -/
theorem c9_witness :
    dsfdr [] [true, false, true] .meandiff .noTransform (1/10) 1000 .dsfdr 31 =
      .ok ([], [], []) :=
  c9_empty [true, false, true] .meandiff .noTransform (1/10) 1000 31 .dsfdr (by norm_num)

/-- Every dispatched statistic returns one value per feature. -/
theorem statOf_length (method : Method) (d : List (List ℚ)) (l : List Bool) :
    (statOf method d l).length = d.length := by
  cases method with
  | meandiff => simp [statOf, meandiff]
  | mannwhitney => simp [statOf, mannwhitney]

/-- One counting round preserves the per-feature count vector length. -/
theorem countHits_length (obs v acc) (h1 : acc.length = obs.length)
    (h2 : v.length = obs.length) : (countHits obs v acc).length = obs.length := by
  simp [countHits, h1, h2]

/-- The permutation engine preserves the per-feature count vector length. -/
theorem permCountAux_length (stat : List (List ℚ) → List Bool → List ℚ)
    (data : List (List ℚ)) (labels : List Bool) (obs : List ℚ)
    (hstat : ∀ labs, (stat data labs).length = obs.length) :
    ∀ (n s : Nat) (acc : List Nat), acc.length = obs.length →
      ((permCountAux stat data labels obs n s acc).1).length = obs.length := by
  intro n
  induction n with
  | zero => intro s acc hacc; exact hacc
  | succ k ih =>
    intro s acc hacc
    rcases hsh : shuffle labels s with ⟨labs, s2⟩
    simp only [permCountAux, hsh]
    exact ih s2 _ (countHits_length obs _ acc hacc (hstat labs))

/-- The p-value vector has one entry per feature. -/
theorem permPvals_length (stat : List (List ℚ) → List Bool → List ℚ)
    (data : List (List ℚ)) (labels : List Bool)
    (hstat : ∀ labs, (stat data labs).length = (stat data labels).length)
    (n s : Nat) :
    (permPvals stat data labels n s).length = (stat data labels).length := by
  simp only [permPvals, List.length_map]
  exact permCountAux_length stat data labels _ hstat n s _ (List.length_map _ _)

/-- The step-up rejection vector has one entry per feature. -/
theorem stepUp_length (ps : List ℚ) (slope : ℚ) : (stepUp ps slope).length = ps.length := by
  simp only [stepUp]
  split_ifs <;> simp

/-- Every FDR correction returns one boolean per feature. -/
theorem applyFdr_length (fm : FdrMethod) (ps : List ℚ) (alpha : ℚ) :
    (applyFdr fm ps alpha).length = ps.length := by
  cases fm <;> simp [applyFdr, dsfdrCorrection, bhfdr, byfdr, stepUp_length]

/-- C10: every successful orchestrator call returns a tuple whose first
component is the boolean rejection vector of length numFeatures, with the
observed-statistic vector and the p-value vector as the later components. -/
theorem c10_result_shape :
    ∀ (data : List (List ℚ)) (labels : List Bool) (method : Method)
      (transform : Transform) (alpha : ℚ) (numperm seed : Nat) (fm : FdrMethod)
      (r : List Bool × List ℚ × List ℚ),
      dsfdr data labels method transform alpha numperm fm seed = .ok r →
      r.1 = applyFdr fm
          (permPvals (statOf method) (applyTransform transform data) labels numperm seed)
          alpha ∧
      r.1.length = data.length ∧
      r.2.1 = statOf method (applyTransform transform data) labels ∧
      r.2.2 = permPvals (statOf method) (applyTransform transform data) labels numperm seed := by
  intro data labels method transform alpha numperm seed fm r h
  obtain ⟨hv, hsh⟩ := dsfdr_ok_valid h
  rw [dsfdr_valid fm hv hsh] at h
  have e := (Except.ok.inj h).symm
  subst e
  refine ⟨rfl, ?_, rfl, rfl⟩
  have hlen : ∀ d : List (List ℚ), (applyTransform transform d).length = d.length := by
    intro d; cases transform <;> simp [applyTransform]
  rw [applyFdr_length, permPvals_length]
  · rw [statOf_length, hlen]
  · intro labs
    rw [statOf_length, statOf_length]

/-- Witness for C10 at a concrete small run. -/
theorem c10_witness :
    (([false], [-10], [3/11]) : List Bool × List ℚ × List ℚ).1.length =
      [[0, 0, 0, 10, 10, 10]].length :=
  (c10_result_shape [[0, 0, 0, 10, 10, 10]] [true, true, true, false, false, false]
    .meandiff .noTransform (1/20) 10 7 .bhfdr ([false], [-10], [3/11]) (by rfl)).2.1

/-- Witness for C6: a concrete pair of runs at alpha 1/20 and 1/2. -/
theorem c6_witness :
    countTrue [false] ≤ countTrue [true] :=
  c6_alpha_mono [[0, 0, 0, 10, 10, 10]] [true, true, true, false, false, false]
    .meandiff .noTransform 10 7 .bhfdr (1/20) (1/2)
    ([false], [-10], [3/11]) ([true], [-10], [3/11])
    (by norm_num) (by rfl) (by rfl)

end Calour
